import Mathlib

/-!
Shallow embedding of the rust-to-c repository: the todo-core request/response
mapper (src/core/src/client.rs, types.rs, error.rs, http.rs) and the C-ABI
marshaling layer (src/ffi/src/lib.rs, src/ffi/src/types.rs).

Modelling conventions:
- Rust String / str values are Lean String values.
- Nullable C pointers are Option values; a C string pointer is Option String.
- A computation that may panic (CString::new(..).unwrap() on an interior NUL
  byte) is a value of the Unwind monad; catch_unwind is an explicit match.
- u16 / u32 become Nat, i32 becomes Int (only equality tests are performed).
- serde_json is an external dependency: response-body decoding is a parameter
  (a function String to Except String alpha), while request-body encoding for
  the two derived input structs is embedded concretely following the serde
  attributes on src/core/src/types.rs (field order, skip_serializing_if).
-/

/-- Unwind models a Rust computation that either returns normally or panics;
catch_unwind inspects it at the boundary. -/
inductive Unwind (α : Type) where
  | ok (value : α)
  | panicked
deriving DecidableEq, Repr

namespace Unwind

def bind : Unwind α → (α → Unwind β) → Unwind β
  | .ok a, f => f a
  | .panicked, _ => .panicked

instance : Monad Unwind where
  pure := Unwind.ok
  bind := Unwind.bind

theorem bind_ok (a : α) (f : α → Unwind β) : Unwind.bind (.ok a) f = f a := rfl

theorem bind_panicked (f : α → Unwind β) :
    Unwind.bind (Unwind.panicked : Unwind α) f = .panicked := rfl

/-- mapM over a list in the Unwind monad, mirroring a Rust iterator map
whose closure may panic, collected into a Vec. -/
def mapList (f : α → Unwind β) : List α → Unwind (List β)
  | [] => .ok []
  | a :: as => Unwind.bind (f a) fun b => Unwind.bind (mapList f as) fun bs => .ok (b :: bs)

end Unwind

/-- Predicate for a Rust String containing an interior NUL byte, which makes
CString::new return an error. -/
def hasNul (s : String) : Bool := s.data.any (fun c => c = '\x00')

/-- Model of CString::new(s).unwrap(): panics when s has an interior NUL,
otherwise yields the same text. -/
def mkCString (s : String) : Unwind String :=
  if hasNul s then .panicked else .ok s

/-- Model of CString::new(s).unwrap_or_default(): never panics; an interior
NUL yields the default (empty) C string. -/
def mkCStringOrDefault (s : String) : String :=
  if hasNul s then "" else s

-- ---------------------------------------------------------------------------
-- UUID model (external uuid crate: Uuid::parse_str and the Display form)
-- ---------------------------------------------------------------------------

/-- A UUID is a 128-bit value; we store it as the Nat given by its 32 hex
digits read big-endian. -/
structure Uuid where
  val : Nat
deriving DecidableEq, Repr

/-- Lowercase hex digit for a value below 16 (0-9 then a-f), as produced by
the uuid crate's Display implementation. -/
def hexDigit (n : Nat) : Char :=
  if n < 10 then Char.ofNat (48 + n) else Char.ofNat (87 + n)

/-- Fixed-width big-endian lowercase hex rendering of the low (4*w) bits. -/
def toHexDigits : Nat → Nat → List Char
  | _, 0 => []
  | n, w + 1 => toHexDigits (n / 16) w ++ [hexDigit (n % 16)]

/-- Display form of a Uuid as used by format "{id}": canonical hyphenated
lowercase hex, the five fields of 8, 4, 4, 4 and 12 digits. -/
def Uuid.render (u : Uuid) : String :=
  ⟨toHexDigits (u.val / 16 ^ 24) 8 ++ '-' :: toHexDigits (u.val / 16 ^ 20) 4 ++
    '-' :: toHexDigits (u.val / 16 ^ 16) 4 ++ '-' :: toHexDigits (u.val / 16 ^ 12) 4 ++
    '-' :: toHexDigits u.val 12⟩

/-- Numeric value of one hex character (either case), none otherwise. -/
def parseHexDigit (c : Char) : Option Nat :=
  if '0' ≤ c ∧ c ≤ '9' then some (c.toNat - 48)
  else if 'a' ≤ c ∧ c ≤ 'f' then some (c.toNat - 87)
  else if 'A' ≤ c ∧ c ≤ 'F' then some (c.toNat - 55)
  else none

/-- Big-endian accumulation of a run of hex characters. -/
def parseHexRun : Nat → List Char → Option Nat
  | acc, [] => some acc
  | acc, c :: cs =>
    match parseHexDigit c with
    | some d => parseHexRun (acc * 16 + d) cs
    | none => none

/-- Hyphenated UUID text: 36 characters with hyphens exactly at positions
8, 13, 18 and 23 and hex digits at every other position — the five digit
groups are sliced out positionally and hex-parsed, so a hyphen (or any
non-hex character) inside a digit group fails the parse, as in the uuid
crate. -/
def parseHyphenatedUuid (cs : List Char) : Option Nat :=
  if cs.length = 36 ∧ cs.get? 8 = some '-' ∧ cs.get? 13 = some '-' ∧
      cs.get? 18 = some '-' ∧ cs.get? 23 = some '-' then
    parseHexRun 0 (cs.take 8 ++ (cs.drop 9).take 4 ++ (cs.drop 14).take 4 ++
      (cs.drop 19).take 4 ++ cs.drop 24)
  else none

/-- Model of uuid::Uuid::parse_str: accepts the simple (32 hex digits),
hyphenated, urn-prefixed and Microsoft-braced textual forms. -/
def uuidParseStr (s : String) : Option Uuid :=
  let cs := s.data
  let raw : Option Nat :=
    if cs.length = 32 then parseHexRun 0 cs
    else if cs.length = 36 then parseHyphenatedUuid cs
    else if cs.length = 45 ∧ cs.take 9 = "urn:uuid:".data then
      parseHyphenatedUuid (cs.drop 9)
    else if cs.length = 38 ∧ cs.get? 0 = some '\x7b' ∧ cs.get? 37 = some '\x7d' then
      parseHyphenatedUuid ((cs.drop 1).take 36)
    else none
  raw.map Uuid.mk

-- ---------------------------------------------------------------------------
-- serde_json encoding of the two derived input structs
-- ---------------------------------------------------------------------------

/-- Escape of one character inside a JSON string literal as serde_json
writes it: quote and backslash escaped, the short control escapes, other
control characters as a four-digit lowercase hex escape, everything else
verbatim. -/
def jsonEscapeChar (c : Char) : List Char :=
  if c = '"' then ['\\', '"']
  else if c = '\\' then ['\\', '\\']
  else if c = '\x08' then ['\\', 'b']
  else if c = '\x09' then ['\\', 't']
  else if c = '\x0a' then ['\\', 'n']
  else if c = '\x0c' then ['\\', 'f']
  else if c = '\x0d' then ['\\', 'r']
  else if c.toNat < 32 then
    '\\' :: 'u' :: toHexDigits c.toNat 4
  else [c]

/-- JSON string literal for s, double quotes included. -/
def jsonString (s : String) : String :=
  ⟨'"' :: (s.data.flatMap jsonEscapeChar) ++ ['"']⟩

/-- JSON rendering of a boolean. -/
def jsonBool (b : Bool) : String := if b then "true" else "false"

/-- Compact rendering of the field list of a JSON object, serde_json style:
key:value pairs joined by commas. -/
def renderFieldList : List (String × String) → String
  | [] => ""
  | [f] => jsonString f.1 ++ ":" ++ f.2
  | f :: rest => jsonString f.1 ++ ":" ++ f.2 ++ "," ++ renderFieldList rest

/-- JSON object built from a field list, braces included. -/
def renderObject (fields : List (String × String)) : String :=
  "\x7b" ++ renderFieldList fields ++ "\x7d"

-- ---------------------------------------------------------------------------
-- Core domain types (src/core/src/types.rs, http.rs, error.rs)
-- ---------------------------------------------------------------------------

/-- A single todo item returned by the API (struct Todo). -/
structure Todo where
  id : Uuid
  title : String
  completed : Bool
deriving DecidableEq, Repr

/-- Request payload for creating a new todo (struct CreateTodo). -/
structure CreateTodo where
  title : String
  completed : Bool
deriving DecidableEq, Repr

/-- Request payload for updating an existing todo (struct UpdateTodo); both
fields carry serde attribute skip_serializing_if Option::is_none. -/
structure UpdateTodo where
  title : Option String
  completed : Option Bool
deriving DecidableEq, Repr

/-- Serde serialization of CreateTodo: both fields always present, in
declaration order. -/
def CreateTodo.serializeFields (c : CreateTodo) : List (String × String) :=
  [("title", jsonString c.title), ("completed", jsonBool c.completed)]

/-- Model of serde_json::to_string for CreateTodo. -/
def CreateTodo.toJson (c : CreateTodo) : String :=
  renderObject c.serializeFields

/-- Serde serialization of UpdateTodo: a field whose Option is none is
skipped entirely (skip_serializing_if), fields in declaration order. -/
def UpdateTodo.serializeFields (u : UpdateTodo) : List (String × String) :=
  (match u.title with
    | some t => [("title", jsonString t)]
    | none => []) ++
  (match u.completed with
    | some b => [("completed", jsonBool b)]
    | none => [])

/-- Model of serde_json::to_string for UpdateTodo. -/
def UpdateTodo.toJson (u : UpdateTodo) : String :=
  renderObject u.serializeFields

/-- Model of serde_json::to_string on CreateTodo as the fallible call the
source makes; for this derived struct serialization never fails. -/
def serdeToStringCreate (c : CreateTodo) : Except String String :=
  .ok c.toJson

/-- Model of serde_json::to_string on UpdateTodo as the fallible call the
source makes; for this derived struct serialization never fails. -/
def serdeToStringUpdate (u : UpdateTodo) : Except String String :=
  .ok u.toJson

/-- HTTP method for a request (enum HttpMethod). -/
inductive HttpMethod where
  | Get
  | Post
  | Put
  | Delete
deriving DecidableEq, Repr

/-- An HTTP request described as plain data (struct HttpRequest). -/
structure HttpRequest where
  method : HttpMethod
  path : String
  headers : List (String × String)
  body : Option String
deriving DecidableEq, Repr

/-- An HTTP response described as plain data (struct HttpResponse). -/
structure HttpResponse where
  status : Nat
  headers : List (String × String)
  body : String
deriving DecidableEq, Repr

/-- Errors returned by TodoClient parse methods (enum ApiError). -/
inductive ApiError where
  | NotFound
  | HttpError (status : Nat) (body : String)
  | DeserializationError (msg : String)
  | SerializationError (msg : String)
deriving DecidableEq, Repr

/-- Display implementation of ApiError (impl fmt::Display for ApiError). -/
def ApiError.toMessage : ApiError → String
  | .NotFound => "resource not found"
  | .HttpError status body => "HTTP " ++ toString status ++ ": " ++ body
  | .DeserializationError msg => "deserialization failed: " ++ msg
  | .SerializationError msg => "serialization failed: " ++ msg

-- ---------------------------------------------------------------------------
-- Core client (src/core/src/client.rs)
-- ---------------------------------------------------------------------------

/-- Model of str::trim_end_matches with a single-character pattern: removes
every trailing occurrence. -/
def trimEndMatchesChar (s : String) (p : Char) : String :=
  ⟨(s.data.reverse.dropWhile (fun c => c = p)).reverse⟩

/-- Synchronous, stateless client for the todo API (struct TodoClient). -/
structure TodoClient where
  base_url : String
deriving DecidableEq, Repr

namespace TodoClient

/-- Constructor TodoClient::new: strips every trailing slash from the base
URL. -/
def new (base_url : String) : TodoClient :=
  { base_url := trimEndMatchesChar base_url '/' }

/-- Method TodoClient::build_list_todos. -/
def build_list_todos (c : TodoClient) : HttpRequest :=
  { method := .Get
    path := c.base_url ++ "/todos"
    headers := []
    body := none }

/-- Method TodoClient::build_get_todo. -/
def build_get_todo (c : TodoClient) (id : Uuid) : HttpRequest :=
  { method := .Get
    path := c.base_url ++ "/todos/" ++ id.render
    headers := []
    body := none }

/-- Method TodoClient::build_create_todo. -/
def build_create_todo (c : TodoClient) (input : CreateTodo) :
    Except ApiError HttpRequest :=
  match serdeToStringCreate input with
  | .error e => .error (.SerializationError e)
  | .ok body =>
    .ok { method := .Post
          path := c.base_url ++ "/todos"
          headers := [("content-type", "application/json")]
          body := some body }

/-- Method TodoClient::build_update_todo. -/
def build_update_todo (c : TodoClient) (id : Uuid) (input : UpdateTodo) :
    Except ApiError HttpRequest :=
  match serdeToStringUpdate input with
  | .error e => .error (.SerializationError e)
  | .ok body =>
    .ok { method := .Put
          path := c.base_url ++ "/todos/" ++ id.render
          headers := [("content-type", "application/json")]
          body := some body }

/-- Method TodoClient::build_delete_todo. -/
def build_delete_todo (c : TodoClient) (id : Uuid) : HttpRequest :=
  { method := .Delete
    path := c.base_url ++ "/todos/" ++ id.render
    headers := []
    body := none }

end TodoClient

/-- Function check_status: maps non-success status codes to the appropriate
ApiError variant. -/
def check_status (response : HttpResponse) (expected : Nat) :
    Except ApiError Unit :=
  if response.status = expected then .ok ()
  else if response.status = 404 then .error .NotFound
  else .error (.HttpError response.status response.body)

namespace TodoClient

/-- Method TodoClient::parse_list_todos; serde_json::from_str for a Vec of
Todo is the decode parameter. -/
def parse_list_todos (decode : String → Except String (List Todo))
    (_c : TodoClient) (response : HttpResponse) :
    Except ApiError (List Todo) :=
  match check_status response 200 with
  | .error e => .error e
  | .ok _ =>
    match decode response.body with
    | .ok v => .ok v
    | .error e => .error (.DeserializationError e)

/-- Method TodoClient::parse_get_todo. -/
def parse_get_todo (decode : String → Except String Todo)
    (_c : TodoClient) (response : HttpResponse) : Except ApiError Todo :=
  match check_status response 200 with
  | .error e => .error e
  | .ok _ =>
    match decode response.body with
    | .ok v => .ok v
    | .error e => .error (.DeserializationError e)

/-- Method TodoClient::parse_create_todo. -/
def parse_create_todo (decode : String → Except String Todo)
    (_c : TodoClient) (response : HttpResponse) : Except ApiError Todo :=
  match check_status response 201 with
  | .error e => .error e
  | .ok _ =>
    match decode response.body with
    | .ok v => .ok v
    | .error e => .error (.DeserializationError e)

/-- Method TodoClient::parse_update_todo. -/
def parse_update_todo (decode : String → Except String Todo)
    (_c : TodoClient) (response : HttpResponse) : Except ApiError Todo :=
  match check_status response 200 with
  | .error e => .error e
  | .ok _ =>
    match decode response.body with
    | .ok v => .ok v
    | .error e => .error (.DeserializationError e)

/-- Method TodoClient::parse_delete_todo; no body decoding on success. -/
def parse_delete_todo (_c : TodoClient) (response : HttpResponse) :
    Except ApiError Unit :=
  match check_status response 204 with
  | .error e => .error e
  | .ok _ => .ok ()

end TodoClient

-- ---------------------------------------------------------------------------
-- FFI types (src/ffi/src/types.rs)
-- ---------------------------------------------------------------------------

/-- Opaque handle to a TodoClient (struct FfiTodoClient). -/
structure FfiTodoClient where
  inner : TodoClient
deriving DecidableEq, Repr

/-- HTTP method as a C enum (enum FfiHttpMethod). -/
inductive FfiHttpMethod where
  | Get
  | Post
  | Put
  | Delete
deriving DecidableEq, Repr

/-- Conversion impl From HttpMethod for FfiHttpMethod. -/
def FfiHttpMethod.from_core : HttpMethod → FfiHttpMethod
  | .Get => .Get
  | .Post => .Post
  | .Put => .Put
  | .Delete => .Delete

/-- A single HTTP header as a key-value pair of C strings (struct
FfiHeader). -/
structure FfiHeader where
  key : String
  value : String
deriving DecidableEq, Repr

/-- An HTTP request as C-compatible plain data (struct FfiHttpRequest); the
headers pointer is null exactly when the core header list was empty. -/
structure FfiHttpRequest where
  method : FfiHttpMethod
  path : String
  headers : Option (List FfiHeader)
  headers_len : Nat
  body : Option String
deriving DecidableEq, Repr

/-- Conversion of one core header pair into an FfiHeader, allocating both C
strings (the closure of the iterator map inside FfiHttpRequest::from_core). -/
def FfiHeader.from_core (kv : String × String) : Unwind FfiHeader := do
  let k ← mkCString kv.1
  let v ← mkCString kv.2
  pure { key := k, value := v }

/-- Conversion FfiHttpRequest::from_core: heap-allocates C strings for path,
body and each header; CString::new(..).unwrap() panics on interior NUL. -/
def FfiHttpRequest.from_core (req : HttpRequest) : Unwind FfiHttpRequest := do
  let path ← mkCString req.path
  let body ←
    match req.body with
    | some b => do
        let s ← mkCString b
        pure (some s)
    | none => pure none
  let headers_len := req.headers.length
  let headers ←
    if req.headers.isEmpty then
      pure none
    else do
      let hs ← Unwind.mapList FfiHeader.from_core req.headers
      pure (some hs)
  pure { method := FfiHttpMethod.from_core req.method
         path := path
         headers := headers
         headers_len := headers_len
         body := body }

/-- An HTTP response as C-compatible plain data (struct FfiHttpResponse);
the body is a nullable C string owned by the caller. -/
structure FfiHttpResponse where
  status : Nat
  body : Option String
deriving DecidableEq, Repr

/-- Error codes returned in FfiTodoResult (enum FfiErrorCode). -/
inductive FfiErrorCode where
  | Ok
  | NotFound
  | Http
  | Deserialization
  | Serialization
  | Panic
  | NullArg
deriving DecidableEq, Repr

/-- Tag telling todo_free_result what data points to (enum FfiDataTag). -/
inductive FfiDataTag where
  | None
  | Todo
  | TodoList
deriving DecidableEq, Repr

/-- A single todo item exposed to C (struct FfiTodo); id and title are
heap-allocated C strings. -/
structure FfiTodo where
  id : String
  title : String
  completed : Bool
deriving DecidableEq, Repr

/-- A list of todo items exposed to C (struct FfiTodoList); the items
pointer is null exactly when the list was empty, len is the item count. -/
structure FfiTodoList where
  items : Option (List FfiTodo)
  len : Nat
deriving DecidableEq, Repr

/-- Shape of the value behind the void data pointer of an envelope, as
discriminated by the data tag. -/
inductive FfiPayload where
  | todoItem (t : FfiTodo)
  | todoList (l : FfiTodoList)
deriving DecidableEq, Repr

/-- Result envelope for all parse operations (struct FfiTodoResult); the
data field models the nullable void pointer. -/
structure FfiTodoResult where
  error_code : FfiErrorCode
  error_message : Option String
  http_status : Nat
  data_tag : FfiDataTag
  data : Option FfiPayload
deriving DecidableEq, Repr

/-- Conversion of one core Todo into an FfiTodo, allocating the id string
(canonical hyphenated form) and the title C string. -/
def FfiTodo.from_core (t : Todo) : Unwind FfiTodo := do
  let id ← mkCString t.id.render
  let title ← mkCString t.title
  pure { id := id, title := title, completed := t.completed }

namespace FfiTodoResult

/-- Constructor FfiTodoResult::ok_todo: success envelope carrying a single
FfiTodo; CString creation for id and title may panic. -/
def ok_todo (todo : Todo) : Unwind FfiTodoResult := do
  let ffi_todo ← FfiTodo.from_core todo
  pure { error_code := .Ok
         error_message := none
         http_status := 0
         data_tag := .Todo
         data := some (.todoItem ffi_todo) }

/-- Constructor FfiTodoResult::ok_todo_list: success envelope carrying an
FfiTodoList; the items pointer is null for an empty list but the list
struct itself is always allocated. -/
def ok_todo_list (todos : List Todo) : Unwind FfiTodoResult := do
  let len := todos.length
  let ffi_todos ← Unwind.mapList FfiTodo.from_core todos
  let items := if ffi_todos.isEmpty then none else some ffi_todos
  pure { error_code := .Ok
         error_message := none
         http_status := 0
         data_tag := .TodoList
         data := some (.todoList { items := items, len := len }) }

/-- Constructor FfiTodoResult::ok_empty: success envelope with no payload. -/
def ok_empty : FfiTodoResult :=
  { error_code := .Ok
    error_message := none
    http_status := 0
    data_tag := .None
    data := none }

/-- Constructor FfiTodoResult::from_error: error envelope from an ApiError;
the message C string creation may panic on interior NUL. -/
def from_error (err : ApiError) : Unwind FfiTodoResult := do
  let code_status : FfiErrorCode × Nat :=
    match err with
    | .NotFound => (.NotFound, 404)
    | .HttpError status _ => (.Http, status)
    | .DeserializationError _ => (.Deserialization, 0)
    | .SerializationError _ => (.Serialization, 0)
  let msg ← mkCString err.toMessage
  pure { error_code := code_status.1
         error_message := some msg
         http_status := code_status.2
         data_tag := .None
         data := none }

/-- Constructor FfiTodoResult::null_arg: invalid-argument envelope for a
null pointer argument of the given name. -/
def null_arg (name : String) : Unwind FfiTodoResult := do
  let msg ← mkCString ("null argument: " ++ name)
  pure { error_code := .NullArg
         error_message := some msg
         http_status := 0
         data_tag := .None
         data := none }

/-- Constructor FfiTodoResult::panic: fault envelope for a caught panic;
uses unwrap_or_default so it never panics itself. -/
def panic (msg : String) : FfiTodoResult :=
  { error_code := .Panic
    error_message := some (mkCStringOrDefault msg)
    http_status := 0
    data_tag := .None
    data := none }

end FfiTodoResult

-- ---------------------------------------------------------------------------
-- FFI surface (src/ffi/src/lib.rs)
-- ---------------------------------------------------------------------------

/-- Boundary form catch_unwind(..).unwrap_or(null_mut()): a panic inside a
build closure becomes the null sentinel. -/
def catchUnwindOrNull (u : Unwind (Option α)) : Option α :=
  match u with
  | .ok v => v
  | .panicked => none

/-- Boundary form catch_unwind(..).unwrap_or_else(FfiTodoResult::panic msg):
a panic inside a parse closure becomes a fault-tagged envelope. -/
def catchUnwindOrPanicEnvelope (u : Unwind FfiTodoResult) (msg : String) :
    FfiTodoResult :=
  match u with
  | .ok r => r
  | .panicked => FfiTodoResult.panic msg

/-- Function todo_client_new: null base_url yields a null handle, otherwise
the handle wraps TodoClient::new of the base URL text. -/
def todo_client_new (base_url : Option String) : Option FfiTodoClient :=
  match base_url with
  | none => none
  | some url => some { inner := TodoClient.new url }

/-- Deallocation events a free function performs, recorded as a trace so
the no-op and recursive-release behavior is observable. -/
inductive FreeAction where
  | releaseBox
  | releaseCString (s : String)
  | releaseHeaderArray (n : Nat)
  | releaseItemArray (n : Nat)
deriving DecidableEq, Repr

/-- Function todo_client_free: drops the boxed client; null is a no-op. -/
def todo_client_free (client : Option FfiTodoClient) : List FreeAction :=
  match client with
  | none => []
  | some _ => [.releaseBox]

/-- Function todo_build_list_todos, closure body before catch_unwind. -/
def todo_build_list_todos_go (client : Option FfiTodoClient) :
    Unwind (Option FfiHttpRequest) :=
  match client with
  | none => .ok none
  | some c => do
    let req := c.inner.build_list_todos
    let ffi ← FfiHttpRequest.from_core req
    pure (some ffi)

/-- Function todo_build_list_todos. -/
def todo_build_list_todos (client : Option FfiTodoClient) :
    Option FfiHttpRequest :=
  catchUnwindOrNull (todo_build_list_todos_go client)

/-- Function todo_build_get_todo, closure body before catch_unwind. -/
def todo_build_get_todo_go (client : Option FfiTodoClient)
    (id : Option String) : Unwind (Option FfiHttpRequest) :=
  match client, id with
  | some c, some id_str =>
    (match uuidParseStr id_str with
      | none => .ok none
      | some u => do
        let req := c.inner.build_get_todo u
        let ffi ← FfiHttpRequest.from_core req
        pure (some ffi))
  | _, _ => .ok none

/-- Function todo_build_get_todo. -/
def todo_build_get_todo (client : Option FfiTodoClient) (id : Option String) :
    Option FfiHttpRequest :=
  catchUnwindOrNull (todo_build_get_todo_go client id)

/-- Function todo_build_create_todo, closure body before catch_unwind. -/
def todo_build_create_todo_go (client : Option FfiTodoClient)
    (title : Option String) (completed : Bool) :
    Unwind (Option FfiHttpRequest) :=
  match client, title with
  | some c, some title_str =>
    (match c.inner.build_create_todo { title := title_str, completed := completed } with
      | .ok req => do
        let ffi ← FfiHttpRequest.from_core req
        pure (some ffi)
      | .error _ => .ok none)
  | _, _ => .ok none

/-- Function todo_build_create_todo. -/
def todo_build_create_todo (client : Option FfiTodoClient)
    (title : Option String) (completed : Bool) : Option FfiHttpRequest :=
  catchUnwindOrNull (todo_build_create_todo_go client title completed)

/-- Tri-state decoding of the completed argument inside
todo_build_update_todo: 0 is false, 1 is true, anything else is absent. -/
def triStateCompleted (completed : Int) : Option Bool :=
  match completed with
  | 0 => some false
  | 1 => some true
  | _ => none

/-- Function todo_build_update_todo, closure body before catch_unwind. -/
def todo_build_update_todo_go (client : Option FfiTodoClient)
    (id : Option String) (title : Option String) (completed : Int) :
    Unwind (Option FfiHttpRequest) :=
  match client, id with
  | some c, some id_str =>
    (match uuidParseStr id_str with
      | none => .ok none
      | some u =>
        let input : UpdateTodo :=
          { title := title, completed := triStateCompleted completed }
        match c.inner.build_update_todo u input with
        | .ok req => do
          let ffi ← FfiHttpRequest.from_core req
          pure (some ffi)
        | .error _ => .ok none)
  | _, _ => .ok none

/-- Function todo_build_update_todo. -/
def todo_build_update_todo (client : Option FfiTodoClient)
    (id : Option String) (title : Option String) (completed : Int) :
    Option FfiHttpRequest :=
  catchUnwindOrNull (todo_build_update_todo_go client id title completed)

/-- Function todo_build_delete_todo, closure body before catch_unwind. -/
def todo_build_delete_todo_go (client : Option FfiTodoClient)
    (id : Option String) : Unwind (Option FfiHttpRequest) :=
  match client, id with
  | some c, some id_str =>
    (match uuidParseStr id_str with
      | none => .ok none
      | some u => do
        let req := c.inner.build_delete_todo u
        let ffi ← FfiHttpRequest.from_core req
        pure (some ffi))
  | _, _ => .ok none

/-- Function todo_build_delete_todo. -/
def todo_build_delete_todo (client : Option FfiTodoClient)
    (id : Option String) : Option FfiHttpRequest :=
  catchUnwindOrNull (todo_build_delete_todo_go client id)

/-- Function ffi_response_to_core: a null body pointer becomes the empty
string; headers are not transported. -/
def ffi_response_to_core (resp : FfiHttpResponse) : HttpResponse :=
  { status := resp.status
    headers := []
    body := resp.body.getD "" }

/-- Function todo_parse_list_todos, closure body before catch_unwind. -/
def todo_parse_list_todos_go (decode : String → Except String (List Todo))
    (client : Option FfiTodoClient) (response : Option FfiHttpResponse) :
    Unwind FfiTodoResult :=
  match client with
  | none => FfiTodoResult.null_arg "client"
  | some c =>
    match response with
    | none => FfiTodoResult.null_arg "response"
    | some resp =>
      let core_resp := ffi_response_to_core resp
      match c.inner.parse_list_todos decode core_resp with
      | .ok todos => FfiTodoResult.ok_todo_list todos
      | .error e => FfiTodoResult.from_error e

/-- Function todo_parse_list_todos. -/
def todo_parse_list_todos (decode : String → Except String (List Todo))
    (client : Option FfiTodoClient) (response : Option FfiHttpResponse) :
    FfiTodoResult :=
  catchUnwindOrPanicEnvelope (todo_parse_list_todos_go decode client response)
    "panic in todo_parse_list_todos"

/-- Function todo_parse_get_todo, closure body before catch_unwind. -/
def todo_parse_get_todo_go (decode : String → Except String Todo)
    (client : Option FfiTodoClient) (response : Option FfiHttpResponse) :
    Unwind FfiTodoResult :=
  match client with
  | none => FfiTodoResult.null_arg "client"
  | some c =>
    match response with
    | none => FfiTodoResult.null_arg "response"
    | some resp =>
      let core_resp := ffi_response_to_core resp
      match c.inner.parse_get_todo decode core_resp with
      | .ok todo => FfiTodoResult.ok_todo todo
      | .error e => FfiTodoResult.from_error e

/-- Function todo_parse_get_todo. -/
def todo_parse_get_todo (decode : String → Except String Todo)
    (client : Option FfiTodoClient) (response : Option FfiHttpResponse) :
    FfiTodoResult :=
  catchUnwindOrPanicEnvelope (todo_parse_get_todo_go decode client response)
    "panic in todo_parse_get_todo"

/-- Function todo_parse_create_todo, closure body before catch_unwind. -/
def todo_parse_create_todo_go (decode : String → Except String Todo)
    (client : Option FfiTodoClient) (response : Option FfiHttpResponse) :
    Unwind FfiTodoResult :=
  match client with
  | none => FfiTodoResult.null_arg "client"
  | some c =>
    match response with
    | none => FfiTodoResult.null_arg "response"
    | some resp =>
      let core_resp := ffi_response_to_core resp
      match c.inner.parse_create_todo decode core_resp with
      | .ok todo => FfiTodoResult.ok_todo todo
      | .error e => FfiTodoResult.from_error e

/-- Function todo_parse_create_todo. -/
def todo_parse_create_todo (decode : String → Except String Todo)
    (client : Option FfiTodoClient) (response : Option FfiHttpResponse) :
    FfiTodoResult :=
  catchUnwindOrPanicEnvelope (todo_parse_create_todo_go decode client response)
    "panic in todo_parse_create_todo"

/-- Function todo_parse_update_todo, closure body before catch_unwind. -/
def todo_parse_update_todo_go (decode : String → Except String Todo)
    (client : Option FfiTodoClient) (response : Option FfiHttpResponse) :
    Unwind FfiTodoResult :=
  match client with
  | none => FfiTodoResult.null_arg "client"
  | some c =>
    match response with
    | none => FfiTodoResult.null_arg "response"
    | some resp =>
      let core_resp := ffi_response_to_core resp
      match c.inner.parse_update_todo decode core_resp with
      | .ok todo => FfiTodoResult.ok_todo todo
      | .error e => FfiTodoResult.from_error e

/-- Function todo_parse_update_todo. -/
def todo_parse_update_todo (decode : String → Except String Todo)
    (client : Option FfiTodoClient) (response : Option FfiHttpResponse) :
    FfiTodoResult :=
  catchUnwindOrPanicEnvelope (todo_parse_update_todo_go decode client response)
    "panic in todo_parse_update_todo"

/-- Function todo_parse_delete_todo, closure body before catch_unwind. -/
def todo_parse_delete_todo_go (client : Option FfiTodoClient)
    (response : Option FfiHttpResponse) : Unwind FfiTodoResult :=
  match client with
  | none => FfiTodoResult.null_arg "client"
  | some c =>
    match response with
    | none => FfiTodoResult.null_arg "response"
    | some resp =>
      let core_resp := ffi_response_to_core resp
      match c.inner.parse_delete_todo core_resp with
      | .ok _ => .ok FfiTodoResult.ok_empty
      | .error e => FfiTodoResult.from_error e

/-- Function todo_parse_delete_todo. -/
def todo_parse_delete_todo (client : Option FfiTodoClient)
    (response : Option FfiHttpResponse) : FfiTodoResult :=
  catchUnwindOrPanicEnvelope (todo_parse_delete_todo_go client response)
    "panic in todo_parse_delete_todo"

/-- Function todo_free_request: releases path, body and each header's two
strings plus the header array, then the boxed request; null is a no-op. -/
def todo_free_request (req : Option FfiHttpRequest) : List FreeAction :=
  match req with
  | none => []
  | some r =>
    [FreeAction.releaseCString r.path] ++
    (match r.body with
      | some b => [FreeAction.releaseCString b]
      | none => []) ++
    (match r.headers with
      | some hs =>
        if r.headers_len > 0 then
          (hs.flatMap fun h =>
            [FreeAction.releaseCString h.key, FreeAction.releaseCString h.value]) ++
          [FreeAction.releaseHeaderArray r.headers_len]
        else []
      | none => []) ++
    [FreeAction.releaseBox]

/-- Helper free_ffi_todo_fields: releases the two C-string fields of an
FfiTodo. -/
def free_ffi_todo_fields (todo : FfiTodo) : List FreeAction :=
  [FreeAction.releaseCString todo.id, FreeAction.releaseCString todo.title]

/-- Function todo_free_result: releases the error message, then the payload
as discriminated by the data tag, then the boxed envelope; null is a
no-op. -/
def todo_free_result (result : Option FfiTodoResult) : List FreeAction :=
  match result with
  | none => []
  | some r =>
    (match r.error_message with
      | some m => [FreeAction.releaseCString m]
      | none => []) ++
    (match r.data with
      | none => []
      | some payload =>
        match r.data_tag, payload with
        | .Todo, .todoItem t => free_ffi_todo_fields t ++ [FreeAction.releaseBox]
        | .TodoList, .todoList l =>
          (match l.items with
            | some items =>
              if l.len > 0 then
                items.flatMap free_ffi_todo_fields ++
                [FreeAction.releaseItemArray l.len]
              else []
            | none => []) ++
          [FreeAction.releaseBox]
        | _, _ => []) ++
    [FreeAction.releaseBox]

/-- Function todo_free_string: releases one C string; null is a no-op. -/
def todo_free_string (s : Option String) : List FreeAction :=
  match s with
  | none => []
  | some str => [FreeAction.releaseCString str]

-- ---------------------------------------------------------------------------
-- Helper lemmas
-- ---------------------------------------------------------------------------

@[simp]
theorem Unwind.ok_bind (a : α) (f : α → Unwind β) :
    (Unwind.ok a >>= f) = f a := rfl

@[simp]
theorem Unwind.panicked_bind (f : α → Unwind β) :
    ((Unwind.panicked : Unwind α) >>= f) = .panicked := rfl

@[simp]
theorem Unwind.pure_eq (a : α) : (pure a : Unwind α) = .ok a := rfl

theorem String.data_append_eq (a b : String) : (a ++ b).data = a.data ++ b.data := by
  cases a
  cases b
  rfl

theorem hasNul_append (a b : String) :
    hasNul (a ++ b) = (hasNul a || hasNul b) := by
  simp [hasNul, String.data_append_eq, List.any_append]

/-- NulFree states every character of a list differs from the NUL byte. -/
abbrev NulFree (l : List Char) : Prop := ∀ c ∈ l, c ≠ '\x00'

theorem nulFree_append {l1 l2 : List Char} (h1 : NulFree l1) (h2 : NulFree l2) :
    NulFree (l1 ++ l2) := by
  intro c hc
  rcases List.mem_append.mp hc with h | h
  · exact h1 c h
  · exact h2 c h

theorem nulFree_cons {a : Char} {l : List Char} (ha : a ≠ '\x00')
    (hl : NulFree l) : NulFree (a :: l) := by
  intro c hc
  rcases List.mem_cons.mp hc with h | h
  · exact h ▸ ha
  · exact hl c h

theorem nulFree_nil : NulFree [] := by
  intro c hc
  exact absurd hc (List.not_mem_nil c)

theorem hasNul_mk_false {l : List Char} (h : NulFree l) : hasNul ⟨l⟩ = false := by
  simp only [hasNul, List.any_eq_false, decide_eq_true_eq]
  exact h

theorem hexDigit_lt16_ne_nul : ∀ n, n < 16 → hexDigit n ≠ '\x00' := by decide

theorem toHexDigits_nulFree (w : Nat) :
    ∀ (n : Nat), NulFree (toHexDigits n w) := by
  induction w with
  | zero =>
    intro n
    exact nulFree_nil
  | succ w ih =>
    intro n
    exact nulFree_append (ih (n / 16))
      (nulFree_cons (hexDigit_lt16_ne_nul _ (Nat.mod_lt _ (by decide))) nulFree_nil)

theorem hasNul_uuid_render (u : Uuid) : hasNul u.render = false := by
  apply hasNul_mk_false
  exact nulFree_append
    (nulFree_append
      (nulFree_append
        (nulFree_append (toHexDigits_nulFree 8 _)
          (nulFree_cons (by decide) (toHexDigits_nulFree 4 _)))
        (nulFree_cons (by decide) (toHexDigits_nulFree 4 _)))
      (nulFree_cons (by decide) (toHexDigits_nulFree 4 _)))
    (nulFree_cons (by decide) (toHexDigits_nulFree 12 _))

theorem jsonEscapeChar_nulFree (c : Char) : NulFree (jsonEscapeChar c) := by
  unfold jsonEscapeChar
  split_ifs with h1 h2 h3 h4 h5 h6 h7 h8
  · exact by decide
  · exact by decide
  · exact by decide
  · exact by decide
  · exact by decide
  · exact by decide
  · exact by decide
  · exact nulFree_cons (by decide) (nulFree_cons (by decide) (toHexDigits_nulFree 4 _))
  · refine nulFree_cons ?_ nulFree_nil
    intro hcontra
    subst hcontra
    exact h8 (by decide)

theorem hasNul_jsonString (s : String) : hasNul (jsonString s) = false := by
  apply hasNul_mk_false
  refine nulFree_cons (by decide) (nulFree_append ?_ (by decide))
  intro c hc
  rcases List.mem_flatMap.mp hc with ⟨a, _, ha⟩
  exact jsonEscapeChar_nulFree a c ha

theorem hasNul_jsonBool (b : Bool) : hasNul (jsonBool b) = false := by
  cases b <;> decide

theorem hasNul_update_toJson (u : UpdateTodo) : hasNul u.toJson = false := by
  rcases u with ⟨t, b⟩
  cases t <;> cases b <;>
    simp [UpdateTodo.toJson, UpdateTodo.serializeFields, renderObject,
      renderFieldList, hasNul_append, hasNul_jsonString, hasNul_jsonBool] <;>
    decide

theorem hasNul_create_toJson (c : CreateTodo) : hasNul c.toJson = false := by
  rcases c with ⟨t, b⟩
  simp [CreateTodo.toJson, CreateTodo.serializeFields, renderObject,
    renderFieldList, hasNul_append, hasNul_jsonString, hasNul_jsonBool]
  decide

/-- Error-code component of FfiTodoResult::from_error's mapping. -/
def ApiError.ffiErrorCode : ApiError → FfiErrorCode
  | .NotFound => .NotFound
  | .HttpError _ _ => .Http
  | .DeserializationError _ => .Deserialization
  | .SerializationError _ => .Serialization

/-- Http-status component of FfiTodoResult::from_error's mapping. -/
def ApiError.ffiHttpStatus : ApiError → Nat
  | .NotFound => 404
  | .HttpError status _ => status
  | .DeserializationError _ => 0
  | .SerializationError _ => 0

theorem null_arg_spec (name : String) (env : FfiTodoResult)
    (h : FfiTodoResult.null_arg name = .ok env) :
    env = { error_code := .NullArg
            error_message := some ("null argument: " ++ name)
            http_status := 0
            data_tag := .None
            data := none } := by
  unfold FfiTodoResult.null_arg mkCString at h
  split_ifs at h <;>
    simp only [Unwind.ok_bind, Unwind.panicked_bind, Unwind.pure_eq] at h
  · exact Unwind.noConfusion h
  · exact (Unwind.ok.inj h).symm

theorem from_error_spec (e : ApiError) (env : FfiTodoResult)
    (h : FfiTodoResult.from_error e = .ok env) :
    env = { error_code := e.ffiErrorCode
            error_message := some e.toMessage
            http_status := e.ffiHttpStatus
            data_tag := .None
            data := none } := by
  cases e <;>
    (unfold FfiTodoResult.from_error mkCString at h
     split_ifs at h <;>
       simp only [Unwind.ok_bind, Unwind.panicked_bind, Unwind.pure_eq] at h) <;>
    first
      | exact Unwind.noConfusion h
      | exact (Unwind.ok.inj h).symm

theorem ffiTodo_from_core_spec (t : Todo) (ft : FfiTodo)
    (h : FfiTodo.from_core t = .ok ft) :
    ft = { id := t.id.render, title := t.title, completed := t.completed } := by
  unfold FfiTodo.from_core mkCString at h
  split_ifs at h <;>
    simp only [Unwind.ok_bind, Unwind.panicked_bind, Unwind.pure_eq] at h <;>
    first
      | exact Unwind.noConfusion h
      | exact (Unwind.ok.inj h).symm

theorem ok_todo_spec (t : Todo) (env : FfiTodoResult)
    (h : FfiTodoResult.ok_todo t = .ok env) :
    env = { error_code := .Ok
            error_message := none
            http_status := 0
            data_tag := .Todo
            data := some (.todoItem { id := t.id.render, title := t.title,
                                      completed := t.completed }) } := by
  unfold FfiTodoResult.ok_todo at h
  cases hc : FfiTodo.from_core t with
  | panicked =>
    rw [hc] at h
    exact Unwind.noConfusion h
  | ok ft =>
    rw [hc] at h
    simp only [Unwind.ok_bind, Unwind.pure_eq] at h
    rw [ffiTodo_from_core_spec t ft hc] at h
    exact (Unwind.ok.inj h).symm

theorem ok_todo_list_spec (ts : List Todo) (env : FfiTodoResult)
    (h : FfiTodoResult.ok_todo_list ts = .ok env) :
    ∃ fts : List FfiTodo,
      env = { error_code := .Ok
              error_message := none
              http_status := 0
              data_tag := .TodoList
              data := some (.todoList { items := if fts.isEmpty then none else some fts
                                        len := ts.length }) } := by
  unfold FfiTodoResult.ok_todo_list at h
  cases hm : Unwind.mapList FfiTodo.from_core ts with
  | panicked =>
    rw [hm] at h
    exact Unwind.noConfusion h
  | ok fts =>
    rw [hm] at h
    simp only [Unwind.ok_bind, Unwind.pure_eq] at h
    exact ⟨fts, (Unwind.ok.inj h).symm⟩

theorem mkCString_ok {s : String} (h : hasNul s = false) :
    mkCString s = .ok s := by
  simp [mkCString, h]

theorem ffiHeader_from_core_ok (kv : String × String)
    (h1 : hasNul kv.1 = false) (h2 : hasNul kv.2 = false) :
    FfiHeader.from_core kv = .ok { key := kv.1, value := kv.2 } := by
  unfold FfiHeader.from_core
  rw [mkCString_ok h1]
  simp only [Unwind.ok_bind]
  rw [mkCString_ok h2]
  simp only [Unwind.ok_bind, Unwind.pure_eq]

theorem mapList_headers_eq (hs : List (String × String))
    (hh : ∀ kv ∈ hs, hasNul kv.1 = false ∧ hasNul kv.2 = false) :
    Unwind.mapList FfiHeader.from_core hs =
      .ok (hs.map fun kv => { key := kv.1, value := kv.2 }) := by
  induction hs with
  | nil => rfl
  | cons kv rest ih =>
    simp only [Unwind.mapList, List.map_cons,
      ffiHeader_from_core_ok kv (hh kv (List.mem_cons_self kv rest)).1
        (hh kv (List.mem_cons_self kv rest)).2,
      ih (fun x hx => hh x (List.mem_cons_of_mem kv hx)), Unwind.bind]

theorem from_core_request_eq (req : HttpRequest)
    (hp : hasNul req.path = false)
    (hb : ∀ b, req.body = some b → hasNul b = false)
    (hh : ∀ kv ∈ req.headers, hasNul kv.1 = false ∧ hasNul kv.2 = false) :
    FfiHttpRequest.from_core req = .ok
      { method := FfiHttpMethod.from_core req.method
        path := req.path
        headers := if req.headers.isEmpty then none
                   else some (req.headers.map fun kv => { key := kv.1, value := kv.2 })
        headers_len := req.headers.length
        body := req.body } := by
  have hhs := mapList_headers_eq req.headers hh
  cases hbody : req.body with
  | none =>
    by_cases he : req.headers.isEmpty <;>
      simp only [FfiHttpRequest.from_core, hbody, mkCString_ok hp, he, hhs,
        Unwind.ok_bind, Unwind.pure_eq, if_true, if_false, ite_true, ite_false] <;>
      rfl
  | some b =>
    by_cases he : req.headers.isEmpty <;>
      simp only [FfiHttpRequest.from_core, hbody, mkCString_ok hp,
        mkCString_ok (hb b hbody), he, hhs, Unwind.ok_bind, Unwind.pure_eq,
        if_true, if_false, ite_true, ite_false] <;>
      rfl

theorem trimEnd_append_slash (s : String) :
    trimEndMatchesChar (s ++ "/") '/' = trimEndMatchesChar s '/' := by
  rcases s with ⟨data⟩
  show trimEndMatchesChar ⟨data ++ ['/']⟩ '/' = trimEndMatchesChar ⟨data⟩ '/'
  unfold trimEndMatchesChar
  simp [List.reverse_append, List.dropWhile]

theorem new_append_slash (base : String) :
    TodoClient.new (base ++ "/") = TodoClient.new base := by
  unfold TodoClient.new
  rw [trimEnd_append_slash]

theorem new_append_replicate_slash (base : String) (n : Nat) :
    TodoClient.new (base ++ ⟨List.replicate n '/'⟩) = TodoClient.new base := by
  induction n with
  | zero =>
    have h : base ++ (⟨List.replicate 0 '/'⟩ : String) = base := by
      rcases base with ⟨db⟩
      show String.mk (db ++ []) = String.mk db
      rw [List.append_nil]
    rw [h]
  | succ n ih =>
    have h : base ++ (⟨List.replicate (n + 1) '/'⟩ : String) =
        (base ++ ⟨List.replicate n '/'⟩) ++ "/" := by
      rcases base with ⟨db⟩
      show String.mk (db ++ List.replicate (n + 1) '/') =
        String.mk ((db ++ List.replicate n '/') ++ ['/'])
      rw [List.replicate_succ', ← List.append_assoc]
    rw [h, new_append_slash, ih]

-- ---------------------------------------------------------------------------
-- Claim theorems
-- ---------------------------------------------------------------------------

/-- C8: for every base URL, a client built from the base with any number of
trailing slash separators (0, 1, or many) builds the identical list request
path; in particular TodoClient::new(base) and TodoClient::new(base ++ "/")
produce the same path from build_list_todos. -/
theorem path_trailing_slash_invariant (base : String) (n : Nat) :
    (TodoClient.new (base ++ "/")).build_list_todos.path =
      (TodoClient.new base).build_list_todos.path ∧
    (TodoClient.new (base ++ ⟨List.replicate n '/'⟩)).build_list_todos.path =
      (TodoClient.new base).build_list_todos.path := by
  rw [new_append_slash, new_append_replicate_slash]
  exact ⟨rfl, rfl⟩

/-- C7: the boundary lifecycle and release operations accept null
defensively: creating a client from a null base URL yields a null handle,
and every free function is a no-op (performs no deallocation and does not
fault) on a null argument. -/
theorem lifecycle_null_defensive :
    todo_client_new none = none ∧
    todo_client_free none = [] ∧
    todo_free_request none = [] ∧
    todo_free_result none = [] ∧
    todo_free_string none = [] :=
  ⟨rfl, rfl, rfl, rfl, rfl⟩

/-- C4: UpdateTodo serialization omits absent fields entirely: a None field
contributes no key to the serialized field list, and the request built by
build_update_todo for the input with title Some "x" and completed None has
body exactly the object with the single title field (never a null-valued
completed entry). -/
theorem update_serialization_omits_absent (c : TodoClient) (id : Uuid)
    (u : UpdateTodo) :
    (u.title = none → "title" ∉ u.serializeFields.map Prod.fst) ∧
    (u.completed = none → "completed" ∉ u.serializeFields.map Prod.fst) ∧
    u.toJson = renderObject u.serializeFields ∧
    c.build_update_todo id { title := some "x", completed := none } =
      .ok { method := .Put
            path := c.base_url ++ "/todos/" ++ id.render
            headers := [("content-type", "application/json")]
            body := some "\x7b\"title\":\"x\"\x7d" } := by
  refine ⟨?_, ?_, rfl, ?_⟩
  · intro ht
    rcases u with ⟨t, b⟩
    cases ht
    cases b <;> simp [UpdateTodo.serializeFields]
  · intro hb
    rcases u with ⟨t, b⟩
    cases hb
    cases t <;> simp [UpdateTodo.serializeFields]
  · have hbody : UpdateTodo.toJson { title := some "x", completed := none } =
        "\x7b\"title\":\"x\"\x7d" := by decide
    unfold TodoClient.build_update_todo serdeToStringUpdate
    rw [hbody]

/-- C4 witness: the absent-field property discharged at a concrete input. -/
theorem update_serialization_omits_absent_witness :
    "completed" ∉
      (UpdateTodo.serializeFields { title := some "x", completed := none }).map
        Prod.fst ∧
    "title" ∉
      (UpdateTodo.serializeFields { title := none, completed := some true }).map
        Prod.fst :=
  ⟨(update_serialization_omits_absent (TodoClient.new "http://h") ⟨0⟩
      { title := some "x", completed := none }).2.1 rfl,
    (update_serialization_omits_absent (TodoClient.new "http://h") ⟨0⟩
      { title := none, completed := some true }).1 rfl⟩

/-- C9 counterexample: the list request path uses the /todos segment, not
/items as the claim states; at base "http://h" the built path differs from
"http://h/items". -/
theorem list_path_not_items :
    (TodoClient.new "http://h").build_list_todos.path ≠ "http://h/items" := by
  decide

/-- C9 (amended): the path built for list and create is base_url ++ "/todos"
and the path built for get, update and delete is base_url ++ "/todos/" ++ id
rendered in the canonical hyphenated UUID textual form. -/
theorem request_paths (c : TodoClient) (id : Uuid) (input : CreateTodo)
    (uinput : UpdateTodo) :
    c.build_list_todos.path = c.base_url ++ "/todos" ∧
    (∃ req, c.build_create_todo input = .ok req ∧
      req.path = c.base_url ++ "/todos") ∧
    (c.build_get_todo id).path = c.base_url ++ "/todos/" ++ id.render ∧
    (∃ req, c.build_update_todo id uinput = .ok req ∧
      req.path = c.base_url ++ "/todos/" ++ id.render) ∧
    (c.build_delete_todo id).path = c.base_url ++ "/todos/" ++ id.render :=
  ⟨rfl, ⟨_, rfl, rfl⟩, rfl, ⟨_, rfl, rfl⟩, rfl⟩

theorem hasNul_id_path (base : String) (u : Uuid) (hb : hasNul base = false) :
    hasNul (base ++ "/todos/" ++ u.render) = false := by
  rw [hasNul_append, hasNul_append, hb, hasNul_uuid_render]
  decide

theorem triState_other {v : Int} (h0 : v ≠ 0) (h1 : v ≠ 1) :
    triStateCompleted v = none := by
  rcases v with n | n
  · match n with
    | 0 => exact absurd rfl h0
    | 1 => exact absurd rfl h1
    | (k + 2) => rfl
  · rfl

/-- C5: for every client handle and id string, the get, update and delete
build operations return the null sentinel when the handle is null, the id
pointer is null, or the id string is not a valid UUID; with a live handle
(whose stored base URL, having crossed the C boundary, has no interior NUL)
and a valid UUID they return a non-null request. -/
theorem build_id_ops_null_policy (c : FfiTodoClient) (s : String) (u : Uuid)
    (title : Option String) (v : Int) (id : Option String) :
    (todo_build_get_todo none id = none) ∧
    (todo_build_get_todo (some c) none = none) ∧
    (uuidParseStr s = none → todo_build_get_todo (some c) (some s) = none) ∧
    (uuidParseStr s = some u → hasNul c.inner.base_url = false →
      (todo_build_get_todo (some c) (some s)).isSome = true) ∧
    (todo_build_update_todo none id title v = none) ∧
    (todo_build_update_todo (some c) none title v = none) ∧
    (uuidParseStr s = none →
      todo_build_update_todo (some c) (some s) title v = none) ∧
    (uuidParseStr s = some u → hasNul c.inner.base_url = false →
      (todo_build_update_todo (some c) (some s) title v).isSome = true) ∧
    (todo_build_delete_todo none id = none) ∧
    (todo_build_delete_todo (some c) none = none) ∧
    (uuidParseStr s = none → todo_build_delete_todo (some c) (some s) = none) ∧
    (uuidParseStr s = some u → hasNul c.inner.base_url = false →
      (todo_build_delete_todo (some c) (some s)).isSome = true) := by
  refine ⟨?_, rfl, ?_, ?_, ?_, rfl, ?_, ?_, ?_, rfl, ?_, ?_⟩
  · cases id <;> rfl
  · intro hid
    simp [todo_build_get_todo, todo_build_get_todo_go, hid, catchUnwindOrNull]
  · intro hid hbase
    have hfc := from_core_request_eq (c.inner.build_get_todo u)
      (hasNul_id_path c.inner.base_url u hbase)
      (by intro b hb2; simp [TodoClient.build_get_todo] at hb2)
      (by intro kv hkv; simp [TodoClient.build_get_todo] at hkv)
    simp [todo_build_get_todo, todo_build_get_todo_go, hid, hfc,
      catchUnwindOrNull]
  · cases id <;> rfl
  · intro hid
    simp [todo_build_update_todo, todo_build_update_todo_go, hid,
      catchUnwindOrNull]
  · intro hid hbase
    have hfc := from_core_request_eq
      { method := .Put
        path := c.inner.base_url ++ "/todos/" ++ u.render
        headers := [("content-type", "application/json")]
        body := some (UpdateTodo.toJson
          { title := title, completed := triStateCompleted v }) }
      (hasNul_id_path c.inner.base_url u hbase)
      (by
        intro b hb2
        simp only [Option.some.injEq] at hb2
        rw [← hb2]
        exact hasNul_update_toJson _)
      (by
        intro kv hkv
        simp only [List.mem_singleton] at hkv
        subst hkv
        exact ⟨by decide, by decide⟩)
    simp [todo_build_update_todo, todo_build_update_todo_go, hid,
      TodoClient.build_update_todo, serdeToStringUpdate, hfc,
      catchUnwindOrNull]
  · cases id <;> rfl
  · intro hid
    simp [todo_build_delete_todo, todo_build_delete_todo_go, hid,
      catchUnwindOrNull]
  · intro hid hbase
    have hfc := from_core_request_eq (c.inner.build_delete_todo u)
      (hasNul_id_path c.inner.base_url u hbase)
      (by intro b hb2; simp [TodoClient.build_delete_todo] at hb2)
      (by intro kv hkv; simp [TodoClient.build_delete_todo] at hkv)
    simp [todo_build_delete_todo, todo_build_delete_todo_go, hid, hfc,
      catchUnwindOrNull]

/-- C5 witness: the invalid-UUID and valid-UUID branches discharged at
concrete inputs. -/
theorem build_id_ops_null_policy_witness :
    todo_build_get_todo (some { inner := TodoClient.new "http://h" })
        (some "not-a-uuid") = none ∧
    (todo_build_delete_todo (some { inner := TodoClient.new "http://h" })
        (some "00000000-0000-0000-0000-000000000001")).isSome = true := by
  obtain ⟨_, _, h3, _, _, _, _, _, _, _, _, h12⟩ :=
    build_id_ops_null_policy { inner := TodoClient.new "http://h" }
      "not-a-uuid" ⟨1⟩ none 0 none
  obtain ⟨_, _, _, _, _, _, _, _, _, _, _, h12v⟩ :=
    build_id_ops_null_policy { inner := TodoClient.new "http://h" }
      "00000000-0000-0000-0000-000000000001" ⟨1⟩ none 0 none
  exact ⟨h3 (by decide), h12v (by decide) (by decide)⟩

/-- C6: in todo_build_update_todo the tri-state completed argument maps 0 to
present-false and 1 to present-true, and every other i32 value is treated
as absent — the serialized request body omits the completed field — while
the operation still returns a non-null request (no out-of-range value is
rejected). -/
theorem tri_state_completed_mapping (c : FfiTodoClient) (s : String)
    (u : Uuid) (title : Option String) (v : Int)
    (hid : uuidParseStr s = some u)
    (hbase : hasNul c.inner.base_url = false) :
    (∃ req, todo_build_update_todo (some c) (some s) title 0 = some req ∧
      req.body = some (UpdateTodo.toJson
        { title := title, completed := some false })) ∧
    (∃ req, todo_build_update_todo (some c) (some s) title 1 = some req ∧
      req.body = some (UpdateTodo.toJson
        { title := title, completed := some true })) ∧
    (v ≠ 0 → v ≠ 1 →
      ∃ req, todo_build_update_todo (some c) (some s) title v = some req ∧
        req.body = some (UpdateTodo.toJson
          { title := title, completed := none }) ∧
        "completed" ∉ (UpdateTodo.serializeFields
          { title := title, completed := none }).map Prod.fst) := by
  have hfc : ∀ cc : Option Bool,
      FfiHttpRequest.from_core
        { method := .Put
          path := c.inner.base_url ++ "/todos/" ++ u.render
          headers := [("content-type", "application/json")]
          body := some (UpdateTodo.toJson { title := title, completed := cc }) } =
      .ok { method := .Put
            path := c.inner.base_url ++ "/todos/" ++ u.render
            headers := some [{ key := "content-type", value := "application/json" }]
            headers_len := 1
            body := some (UpdateTodo.toJson { title := title, completed := cc }) } := by
    intro cc
    exact from_core_request_eq _
      (hasNul_id_path c.inner.base_url u hbase)
      (by
        intro b hb2
        simp only [Option.some.injEq] at hb2
        rw [← hb2]
        exact hasNul_update_toJson _)
      (by
        intro kv hkv
        simp only [List.mem_singleton] at hkv
        subst hkv
        exact ⟨by decide, by decide⟩)
  have hres : ∀ cc : Option Bool, ∀ w : Int, triStateCompleted w = cc →
      todo_build_update_todo (some c) (some s) title w =
        some { method := .Put
               path := c.inner.base_url ++ "/todos/" ++ u.render
               headers := some [{ key := "content-type", value := "application/json" }]
               headers_len := 1
               body := some (UpdateTodo.toJson { title := title, completed := cc }) } := by
    intro cc w hw
    simp [todo_build_update_todo, todo_build_update_todo_go, hid,
      TodoClient.build_update_todo, serdeToStringUpdate, hw,
      hfc cc, catchUnwindOrNull]
  refine ⟨⟨_, hres (some false) 0 rfl, rfl⟩, ⟨_, hres (some true) 1 rfl, rfl⟩, ?_⟩
  intro h0 h1
  refine ⟨_, hres none v (triState_other h0 h1), rfl, ?_⟩
  cases title <;> simp [UpdateTodo.serializeFields]

/-- C6 witness: an out-of-range tri-state value at a concrete input. -/
theorem tri_state_completed_mapping_witness :
    ∃ req, todo_build_update_todo (some { inner := TodoClient.new "http://h" })
        (some "00000000-0000-0000-0000-000000000001") (some "t") 7 = some req ∧
      req.body = some (UpdateTodo.toJson
        { title := some "t", completed := none }) ∧
      "completed" ∉ (UpdateTodo.serializeFields
        { title := some "t", completed := none }).map Prod.fst :=
  (tri_state_completed_mapping { inner := TodoClient.new "http://h" }
      "00000000-0000-0000-0000-000000000001" ⟨1⟩ (some "t") 7
      (by decide) (by decide)).2.2 (by decide) (by decide)

/-- C1: status interpretation policy of every core parse operation: at the
operation's expected status (200 for list/get/update, 201 for create, 204
for delete) the body is decoded, yielding the decoded value or a
deserialize error; status 404 yields NotFound regardless of body; any
other status yields HttpError with the literal status and raw body; a
deserialize error can only arise at the expected status (never for
delete); and a body at the mismatched status 200 on parse_create_todo
yields HttpError 200, never success. -/
theorem parse_status_policy (c : TodoClient)
    (dl : String → Except String (List Todo))
    (dt : String → Except String Todo) (resp : HttpResponse) :
    (resp.status = 200 →
      c.parse_list_todos dl resp =
        (match dl resp.body with
          | .ok v => .ok v
          | .error m => .error (.DeserializationError m)) ∧
      c.parse_get_todo dt resp =
        (match dt resp.body with
          | .ok v => .ok v
          | .error m => .error (.DeserializationError m)) ∧
      c.parse_update_todo dt resp =
        (match dt resp.body with
          | .ok v => .ok v
          | .error m => .error (.DeserializationError m))) ∧
    (resp.status = 201 →
      c.parse_create_todo dt resp =
        (match dt resp.body with
          | .ok v => .ok v
          | .error m => .error (.DeserializationError m))) ∧
    (resp.status = 204 → c.parse_delete_todo resp = .ok ()) ∧
    (resp.status = 404 →
      c.parse_list_todos dl resp = .error .NotFound ∧
      c.parse_get_todo dt resp = .error .NotFound ∧
      c.parse_create_todo dt resp = .error .NotFound ∧
      c.parse_update_todo dt resp = .error .NotFound ∧
      c.parse_delete_todo resp = .error .NotFound) ∧
    (resp.status ≠ 200 → resp.status ≠ 404 →
      c.parse_list_todos dl resp =
        .error (.HttpError resp.status resp.body) ∧
      c.parse_get_todo dt resp = .error (.HttpError resp.status resp.body) ∧
      c.parse_update_todo dt resp =
        .error (.HttpError resp.status resp.body)) ∧
    (resp.status ≠ 201 → resp.status ≠ 404 →
      c.parse_create_todo dt resp =
        .error (.HttpError resp.status resp.body)) ∧
    (resp.status ≠ 204 → resp.status ≠ 404 →
      c.parse_delete_todo resp = .error (.HttpError resp.status resp.body)) ∧
    (∀ m, c.parse_list_todos dl resp = .error (.DeserializationError m) →
      resp.status = 200) ∧
    (∀ m, c.parse_get_todo dt resp = .error (.DeserializationError m) →
      resp.status = 200) ∧
    (∀ m, c.parse_create_todo dt resp = .error (.DeserializationError m) →
      resp.status = 201) ∧
    (∀ m, c.parse_update_todo dt resp = .error (.DeserializationError m) →
      resp.status = 200) ∧
    (∀ m, c.parse_delete_todo resp ≠ .error (.DeserializationError m)) ∧
    (resp.status = 200 →
      c.parse_create_todo dt resp = .error (.HttpError 200 resp.body)) := by
  unfold TodoClient.parse_list_todos TodoClient.parse_get_todo
    TodoClient.parse_create_todo TodoClient.parse_update_todo
    TodoClient.parse_delete_todo check_status
  by_cases h200 : resp.status = 200 <;>
    by_cases h404 : resp.status = 404 <;>
    by_cases h201 : resp.status = 201 <;>
    by_cases h204 : resp.status = 204 <;>
    simp_all

/-- C1 witness: the 404 and mismatched-status branches discharged at
concrete responses. -/
theorem parse_status_policy_witness :
    TodoClient.parse_delete_todo (TodoClient.new "http://h")
      { status := 404, headers := [], body := "garbage" } = .error .NotFound ∧
    TodoClient.parse_create_todo
      (fun _ => .ok { id := ⟨1⟩, title := "New", completed := false })
      (TodoClient.new "http://h")
      { status := 200, headers := [], body := "b" } =
      .error (.HttpError 200 "b") := by
  constructor
  · have h := parse_status_policy (TodoClient.new "http://h")
      (fun _ => .error "x")
      (fun _ => .ok { id := ⟨1⟩, title := "New", completed := false })
      { status := 404, headers := [], body := "garbage" }
    exact (h.2.2.2.1 rfl).2.2.2.2
  · have h := parse_status_policy (TodoClient.new "http://h")
      (fun _ => .error "x")
      (fun _ => .ok { id := ⟨1⟩, title := "New", completed := false })
      { status := 200, headers := [], body := "b" }
    exact h.2.2.2.2.2.2.2.2.2.2.2.2 rfl

/-- Mutual-exclusivity invariant of a result envelope (from the claim): the
error message is present exactly on failure, a failing envelope carries no
payload, and the data pointer is null exactly when the tag is None. -/
def EnvelopeInvariant (r : FfiTodoResult) : Prop :=
  (r.error_message = none ↔ r.error_code = .Ok) ∧
  (r.error_code ≠ .Ok → r.data_tag = .None ∧ r.data = none) ∧
  (r.data = none ↔ r.data_tag = .None)

theorem envInv_err (code : FfiErrorCode) (h : code ≠ .Ok) (m : String)
    (st : Nat) :
    EnvelopeInvariant { error_code := code, error_message := some m
                        http_status := st, data_tag := .None, data := none } := by
  refine ⟨?_, fun _ => ⟨rfl, rfl⟩, by simp⟩
  simp [h]

theorem envInv_ok_data (p : FfiPayload) (tag : FfiDataTag)
    (htag : tag ≠ .None) :
    EnvelopeInvariant { error_code := .Ok, error_message := none
                        http_status := 0, data_tag := tag, data := some p } := by
  refine ⟨by simp, fun hc => absurd rfl hc, ?_⟩
  simp [htag]

theorem envInv_ok_empty : EnvelopeInvariant FfiTodoResult.ok_empty :=
  ⟨by simp [FfiTodoResult.ok_empty], fun hc => absurd rfl hc,
    by simp [FfiTodoResult.ok_empty]⟩

theorem envInv_catch (u : Unwind FfiTodoResult) (msg : String)
    (h : ∀ env, u = .ok env → EnvelopeInvariant env) :
    EnvelopeInvariant (catchUnwindOrPanicEnvelope u msg) := by
  cases u with
  | ok env => exact h env rfl
  | panicked => exact envInv_err .Panic (by decide) _ 0

theorem envInv_parse_list_go (dl : String → Except String (List Todo))
    (client : Option FfiTodoClient) (response : Option FfiHttpResponse)
    (env : FfiTodoResult)
    (h : todo_parse_list_todos_go dl client response = .ok env) :
    EnvelopeInvariant env := by
  unfold todo_parse_list_todos_go at h
  cases client with
  | none =>
    rw [null_arg_spec _ _ h]
    exact envInv_err _ (by decide) _ _
  | some c =>
    cases response with
    | none =>
      rw [null_arg_spec _ _ h]
      exact envInv_err _ (by decide) _ _
    | some resp =>
      cases hcore : c.inner.parse_list_todos dl (ffi_response_to_core resp) with
      | ok todos =>
        simp only [hcore] at h
        obtain ⟨fts, henv⟩ := ok_todo_list_spec todos env h
        subst henv
        exact envInv_ok_data _ _ (by decide)
      | error e =>
        simp only [hcore] at h
        rw [from_error_spec e env h]
        exact envInv_err _ (by cases e <;> simp [ApiError.ffiErrorCode]) _ _

theorem envInv_parse_get_go (dt : String → Except String Todo)
    (client : Option FfiTodoClient) (response : Option FfiHttpResponse)
    (env : FfiTodoResult)
    (h : todo_parse_get_todo_go dt client response = .ok env) :
    EnvelopeInvariant env := by
  unfold todo_parse_get_todo_go at h
  cases client with
  | none =>
    rw [null_arg_spec _ _ h]
    exact envInv_err _ (by decide) _ _
  | some c =>
    cases response with
    | none =>
      rw [null_arg_spec _ _ h]
      exact envInv_err _ (by decide) _ _
    | some resp =>
      cases hcore : c.inner.parse_get_todo dt (ffi_response_to_core resp) with
      | ok todo =>
        simp only [hcore] at h
        rw [ok_todo_spec todo env h]
        exact envInv_ok_data _ _ (by decide)
      | error e =>
        simp only [hcore] at h
        rw [from_error_spec e env h]
        exact envInv_err _ (by cases e <;> simp [ApiError.ffiErrorCode]) _ _

theorem envInv_parse_create_go (dt : String → Except String Todo)
    (client : Option FfiTodoClient) (response : Option FfiHttpResponse)
    (env : FfiTodoResult)
    (h : todo_parse_create_todo_go dt client response = .ok env) :
    EnvelopeInvariant env := by
  unfold todo_parse_create_todo_go at h
  cases client with
  | none =>
    rw [null_arg_spec _ _ h]
    exact envInv_err _ (by decide) _ _
  | some c =>
    cases response with
    | none =>
      rw [null_arg_spec _ _ h]
      exact envInv_err _ (by decide) _ _
    | some resp =>
      cases hcore : c.inner.parse_create_todo dt (ffi_response_to_core resp) with
      | ok todo =>
        simp only [hcore] at h
        rw [ok_todo_spec todo env h]
        exact envInv_ok_data _ _ (by decide)
      | error e =>
        simp only [hcore] at h
        rw [from_error_spec e env h]
        exact envInv_err _ (by cases e <;> simp [ApiError.ffiErrorCode]) _ _

theorem envInv_parse_update_go (dt : String → Except String Todo)
    (client : Option FfiTodoClient) (response : Option FfiHttpResponse)
    (env : FfiTodoResult)
    (h : todo_parse_update_todo_go dt client response = .ok env) :
    EnvelopeInvariant env := by
  unfold todo_parse_update_todo_go at h
  cases client with
  | none =>
    rw [null_arg_spec _ _ h]
    exact envInv_err _ (by decide) _ _
  | some c =>
    cases response with
    | none =>
      rw [null_arg_spec _ _ h]
      exact envInv_err _ (by decide) _ _
    | some resp =>
      cases hcore : c.inner.parse_update_todo dt (ffi_response_to_core resp) with
      | ok todo =>
        simp only [hcore] at h
        rw [ok_todo_spec todo env h]
        exact envInv_ok_data _ _ (by decide)
      | error e =>
        simp only [hcore] at h
        rw [from_error_spec e env h]
        exact envInv_err _ (by cases e <;> simp [ApiError.ffiErrorCode]) _ _

theorem envInv_parse_delete_go (client : Option FfiTodoClient)
    (response : Option FfiHttpResponse) (env : FfiTodoResult)
    (h : todo_parse_delete_todo_go client response = .ok env) :
    EnvelopeInvariant env := by
  unfold todo_parse_delete_todo_go at h
  cases client with
  | none =>
    rw [null_arg_spec _ _ h]
    exact envInv_err _ (by decide) _ _
  | some c =>
    cases response with
    | none =>
      rw [null_arg_spec _ _ h]
      exact envInv_err _ (by decide) _ _
    | some resp =>
      cases hcore : c.inner.parse_delete_todo (ffi_response_to_core resp) with
      | ok u2 =>
        simp only [hcore] at h
        rw [← Unwind.ok.inj h]
        exact envInv_ok_empty
      | error e =>
        simp only [hcore] at h
        rw [from_error_spec e env h]
        exact envInv_err _ (by cases e <;> simp [ApiError.ffiErrorCode]) _ _

/-- C3: every envelope produced by any parse FFI operation satisfies the
mutual-exclusivity invariant, a successful list parse carries a non-null
FfiTodoList pointer even for an empty list, and a successful delete
carries tag None with null data. -/
theorem envelope_invariant_parse_ops
    (dl : String → Except String (List Todo))
    (dt : String → Except String Todo)
    (client : Option FfiTodoClient) (response : Option FfiHttpResponse) :
    EnvelopeInvariant (todo_parse_list_todos dl client response) ∧
    EnvelopeInvariant (todo_parse_get_todo dt client response) ∧
    EnvelopeInvariant (todo_parse_create_todo dt client response) ∧
    EnvelopeInvariant (todo_parse_update_todo dt client response) ∧
    EnvelopeInvariant (todo_parse_delete_todo client response) ∧
    (todo_parse_list_todos (fun _ => .ok [])
        (some { inner := TodoClient.new "http://h" })
        (some { status := 200, body := some "[]" })).data =
      some (.todoList { items := none, len := 0 }) ∧
    todo_parse_delete_todo (some { inner := TodoClient.new "http://h" })
        (some { status := 204, body := some "" }) =
      FfiTodoResult.ok_empty := by
  refine ⟨envInv_catch _ _ (envInv_parse_list_go dl client response),
    envInv_catch _ _ (envInv_parse_get_go dt client response),
    envInv_catch _ _ (envInv_parse_create_go dt client response),
    envInv_catch _ _ (envInv_parse_update_go dt client response),
    envInv_catch _ _ (envInv_parse_delete_go client response), ?_, ?_⟩
  · decide
  · decide

theorem check_status_error_shape (resp : HttpResponse) (expected : Nat)
    (e : ApiError) (h : check_status resp expected = .error e) :
    (e = .NotFound ∧ resp.status = 404) ∨
    e = .HttpError resp.status resp.body := by
  unfold check_status at h
  split_ifs at h with h1 h2
  · simp at h
    exact .inl ⟨h.symm, h2⟩
  · simp at h
    exact .inr h.symm

theorem parse_list_error_shape (dl : String → Except String (List Todo))
    (c : TodoClient) (resp : HttpResponse) (e : ApiError)
    (h : c.parse_list_todos dl resp = .error e) :
    (e = .NotFound ∧ resp.status = 404) ∨
    e = .HttpError resp.status resp.body ∨
    ∃ m, e = .DeserializationError m := by
  unfold TodoClient.parse_list_todos at h
  cases hcs : check_status resp 200 with
  | error e2 =>
    simp only [hcs] at h
    rcases check_status_error_shape resp 200 e2 hcs with he | he
    · exact .inl ((Except.error.inj h) ▸ he)
    · exact .inr (.inl ((Except.error.inj h) ▸ he))
  | ok u2 =>
    simp only [hcs] at h
    cases hd : dl resp.body <;> simp only [hd] at h
    · exact .inr (.inr ⟨_, (Except.error.inj h).symm⟩)
    · exact Except.noConfusion h

theorem parse_get_error_shape (dt : String → Except String Todo)
    (c : TodoClient) (resp : HttpResponse) (e : ApiError)
    (h : c.parse_get_todo dt resp = .error e) :
    (e = .NotFound ∧ resp.status = 404) ∨
    e = .HttpError resp.status resp.body ∨
    ∃ m, e = .DeserializationError m := by
  unfold TodoClient.parse_get_todo at h
  cases hcs : check_status resp 200 with
  | error e2 =>
    simp only [hcs] at h
    rcases check_status_error_shape resp 200 e2 hcs with he | he
    · exact .inl ((Except.error.inj h) ▸ he)
    · exact .inr (.inl ((Except.error.inj h) ▸ he))
  | ok u2 =>
    simp only [hcs] at h
    cases hd : dt resp.body <;> simp only [hd] at h
    · exact .inr (.inr ⟨_, (Except.error.inj h).symm⟩)
    · exact Except.noConfusion h

theorem parse_create_error_shape (dt : String → Except String Todo)
    (c : TodoClient) (resp : HttpResponse) (e : ApiError)
    (h : c.parse_create_todo dt resp = .error e) :
    (e = .NotFound ∧ resp.status = 404) ∨
    e = .HttpError resp.status resp.body ∨
    ∃ m, e = .DeserializationError m := by
  unfold TodoClient.parse_create_todo at h
  cases hcs : check_status resp 201 with
  | error e2 =>
    simp only [hcs] at h
    rcases check_status_error_shape resp 201 e2 hcs with he | he
    · exact .inl ((Except.error.inj h) ▸ he)
    · exact .inr (.inl ((Except.error.inj h) ▸ he))
  | ok u2 =>
    simp only [hcs] at h
    cases hd : dt resp.body <;> simp only [hd] at h
    · exact .inr (.inr ⟨_, (Except.error.inj h).symm⟩)
    · exact Except.noConfusion h

theorem parse_update_error_shape (dt : String → Except String Todo)
    (c : TodoClient) (resp : HttpResponse) (e : ApiError)
    (h : c.parse_update_todo dt resp = .error e) :
    (e = .NotFound ∧ resp.status = 404) ∨
    e = .HttpError resp.status resp.body ∨
    ∃ m, e = .DeserializationError m := by
  unfold TodoClient.parse_update_todo at h
  cases hcs : check_status resp 200 with
  | error e2 =>
    simp only [hcs] at h
    rcases check_status_error_shape resp 200 e2 hcs with he | he
    · exact .inl ((Except.error.inj h) ▸ he)
    · exact .inr (.inl ((Except.error.inj h) ▸ he))
  | ok u2 =>
    simp only [hcs] at h
    cases hd : dt resp.body <;> simp only [hd] at h
    · exact .inr (.inr ⟨_, (Except.error.inj h).symm⟩)
    · exact Except.noConfusion h

theorem parse_delete_error_shape (c : TodoClient) (resp : HttpResponse)
    (e : ApiError) (h : c.parse_delete_todo resp = .error e) :
    (e = .NotFound ∧ resp.status = 404) ∨
    e = .HttpError resp.status resp.body := by
  unfold TodoClient.parse_delete_todo at h
  cases hcs : check_status resp 204 with
  | error e2 =>
    simp only [hcs] at h
    rcases check_status_error_shape resp 204 e2 hcs with he | he
    · exact .inl ((Except.error.inj h) ▸ he)
    · exact .inr ((Except.error.inj h) ▸ he)
  | ok u2 =>
    simp only [hcs] at h
    exact Except.noConfusion h

/-- Status-field policy of an envelope (from the claim): a NotFound
envelope carries 404, an Http envelope carries the literal response
status, every other envelope carries 0. -/
def StatusFieldPolicy (response : Option FfiHttpResponse)
    (r : FfiTodoResult) : Prop :=
  (r.error_code = .NotFound → r.http_status = 404) ∧
  (r.error_code = .Http →
    ∃ resp, response = some resp ∧ r.http_status = resp.status) ∧
  (r.error_code ≠ .NotFound → r.error_code ≠ .Http → r.http_status = 0)

theorem statusPolicy_zero (response : Option FfiHttpResponse)
    (code : FfiErrorCode) (hc1 : code ≠ .NotFound) (hc2 : code ≠ .Http)
    (m : Option String) (tag : FfiDataTag) (d : Option FfiPayload) :
    StatusFieldPolicy response
      { error_code := code, error_message := m, http_status := 0
        data_tag := tag, data := d } :=
  ⟨fun hc => absurd hc hc1, fun hc => absurd hc hc2, fun _ _ => rfl⟩

theorem statusPolicy_of_error (response : Option FfiHttpResponse)
    (resp : FfiHttpResponse) (hmem : response = some resp) (e : ApiError)
    (hhttp : ∀ st2 b, e = .HttpError st2 b → st2 = resp.status) :
    StatusFieldPolicy response
      { error_code := e.ffiErrorCode, error_message := some e.toMessage
        http_status := e.ffiHttpStatus, data_tag := .None, data := none } := by
  cases e with
  | NotFound =>
    exact ⟨fun _ => rfl, fun hc => FfiErrorCode.noConfusion hc,
      fun hnf _ => absurd rfl hnf⟩
  | HttpError st2 b =>
    exact ⟨fun hc => FfiErrorCode.noConfusion hc,
      fun _ => ⟨resp, hmem, hhttp st2 b rfl⟩, fun _ hh => absurd rfl hh⟩
  | DeserializationError m =>
    exact ⟨fun hc => FfiErrorCode.noConfusion hc,
      fun hc => FfiErrorCode.noConfusion hc, fun _ _ => rfl⟩
  | SerializationError m =>
    exact ⟨fun hc => FfiErrorCode.noConfusion hc,
      fun hc => FfiErrorCode.noConfusion hc, fun _ _ => rfl⟩

theorem statusPolicy_parse_list (dl : String → Except String (List Todo))
    (client : Option FfiTodoClient) (response : Option FfiHttpResponse) :
    StatusFieldPolicy response (todo_parse_list_todos dl client response) := by
  unfold todo_parse_list_todos catchUnwindOrPanicEnvelope
  cases hgo : todo_parse_list_todos_go dl client response with
  | panicked => exact statusPolicy_zero _ _ (by decide) (by decide) _ _ _
  | ok env =>
    unfold todo_parse_list_todos_go at hgo
    cases client with
    | none =>
      rw [null_arg_spec _ _ hgo]
      exact statusPolicy_zero _ _ (by decide) (by decide) _ _ _
    | some c =>
      cases response with
      | none =>
        rw [null_arg_spec _ _ hgo]
        exact statusPolicy_zero _ _ (by decide) (by decide) _ _ _
      | some resp =>
        cases hcore : c.inner.parse_list_todos dl (ffi_response_to_core resp) with
        | error e =>
          simp only [hcore] at hgo
          rw [from_error_spec e env hgo]
          refine statusPolicy_of_error _ resp rfl e ?_
          intro st2 b he
          have hshape :=
            parse_list_error_shape dl c.inner (ffi_response_to_core resp) e hcore
          rw [he] at hshape
          rcases hshape with ⟨h1, _⟩ | h1 | ⟨m, h1⟩
          · exact ApiError.noConfusion h1
          · exact (ApiError.HttpError.inj h1).1
          · exact ApiError.noConfusion h1
        | ok todos =>
          simp only [hcore] at hgo
          obtain ⟨fts, henv⟩ := ok_todo_list_spec todos env hgo
          subst henv
          exact statusPolicy_zero _ _ (by decide) (by decide) _ _ _

theorem statusPolicy_parse_get (dt : String → Except String Todo)
    (client : Option FfiTodoClient) (response : Option FfiHttpResponse) :
    StatusFieldPolicy response (todo_parse_get_todo dt client response) := by
  unfold todo_parse_get_todo catchUnwindOrPanicEnvelope
  cases hgo : todo_parse_get_todo_go dt client response with
  | panicked => exact statusPolicy_zero _ _ (by decide) (by decide) _ _ _
  | ok env =>
    unfold todo_parse_get_todo_go at hgo
    cases client with
    | none =>
      rw [null_arg_spec _ _ hgo]
      exact statusPolicy_zero _ _ (by decide) (by decide) _ _ _
    | some c =>
      cases response with
      | none =>
        rw [null_arg_spec _ _ hgo]
        exact statusPolicy_zero _ _ (by decide) (by decide) _ _ _
      | some resp =>
        cases hcore : c.inner.parse_get_todo dt (ffi_response_to_core resp) with
        | error e =>
          simp only [hcore] at hgo
          rw [from_error_spec e env hgo]
          refine statusPolicy_of_error _ resp rfl e ?_
          intro st2 b he
          have hshape :=
            parse_get_error_shape dt c.inner (ffi_response_to_core resp) e hcore
          rw [he] at hshape
          rcases hshape with ⟨h1, _⟩ | h1 | ⟨m, h1⟩
          · exact ApiError.noConfusion h1
          · exact (ApiError.HttpError.inj h1).1
          · exact ApiError.noConfusion h1
        | ok todo =>
          simp only [hcore] at hgo
          rw [ok_todo_spec todo env hgo]
          exact statusPolicy_zero _ _ (by decide) (by decide) _ _ _

theorem statusPolicy_parse_create (dt : String → Except String Todo)
    (client : Option FfiTodoClient) (response : Option FfiHttpResponse) :
    StatusFieldPolicy response (todo_parse_create_todo dt client response) := by
  unfold todo_parse_create_todo catchUnwindOrPanicEnvelope
  cases hgo : todo_parse_create_todo_go dt client response with
  | panicked => exact statusPolicy_zero _ _ (by decide) (by decide) _ _ _
  | ok env =>
    unfold todo_parse_create_todo_go at hgo
    cases client with
    | none =>
      rw [null_arg_spec _ _ hgo]
      exact statusPolicy_zero _ _ (by decide) (by decide) _ _ _
    | some c =>
      cases response with
      | none =>
        rw [null_arg_spec _ _ hgo]
        exact statusPolicy_zero _ _ (by decide) (by decide) _ _ _
      | some resp =>
        cases hcore : c.inner.parse_create_todo dt (ffi_response_to_core resp) with
        | error e =>
          simp only [hcore] at hgo
          rw [from_error_spec e env hgo]
          refine statusPolicy_of_error _ resp rfl e ?_
          intro st2 b he
          have hshape :=
            parse_create_error_shape dt c.inner (ffi_response_to_core resp) e hcore
          rw [he] at hshape
          rcases hshape with ⟨h1, _⟩ | h1 | ⟨m, h1⟩
          · exact ApiError.noConfusion h1
          · exact (ApiError.HttpError.inj h1).1
          · exact ApiError.noConfusion h1
        | ok todo =>
          simp only [hcore] at hgo
          rw [ok_todo_spec todo env hgo]
          exact statusPolicy_zero _ _ (by decide) (by decide) _ _ _

theorem statusPolicy_parse_update (dt : String → Except String Todo)
    (client : Option FfiTodoClient) (response : Option FfiHttpResponse) :
    StatusFieldPolicy response (todo_parse_update_todo dt client response) := by
  unfold todo_parse_update_todo catchUnwindOrPanicEnvelope
  cases hgo : todo_parse_update_todo_go dt client response with
  | panicked => exact statusPolicy_zero _ _ (by decide) (by decide) _ _ _
  | ok env =>
    unfold todo_parse_update_todo_go at hgo
    cases client with
    | none =>
      rw [null_arg_spec _ _ hgo]
      exact statusPolicy_zero _ _ (by decide) (by decide) _ _ _
    | some c =>
      cases response with
      | none =>
        rw [null_arg_spec _ _ hgo]
        exact statusPolicy_zero _ _ (by decide) (by decide) _ _ _
      | some resp =>
        cases hcore : c.inner.parse_update_todo dt (ffi_response_to_core resp) with
        | error e =>
          simp only [hcore] at hgo
          rw [from_error_spec e env hgo]
          refine statusPolicy_of_error _ resp rfl e ?_
          intro st2 b he
          have hshape :=
            parse_update_error_shape dt c.inner (ffi_response_to_core resp) e hcore
          rw [he] at hshape
          rcases hshape with ⟨h1, _⟩ | h1 | ⟨m, h1⟩
          · exact ApiError.noConfusion h1
          · exact (ApiError.HttpError.inj h1).1
          · exact ApiError.noConfusion h1
        | ok todo =>
          simp only [hcore] at hgo
          rw [ok_todo_spec todo env hgo]
          exact statusPolicy_zero _ _ (by decide) (by decide) _ _ _

theorem statusPolicy_parse_delete (client : Option FfiTodoClient)
    (response : Option FfiHttpResponse) :
    StatusFieldPolicy response (todo_parse_delete_todo client response) := by
  unfold todo_parse_delete_todo catchUnwindOrPanicEnvelope
  cases hgo : todo_parse_delete_todo_go client response with
  | panicked => exact statusPolicy_zero _ _ (by decide) (by decide) _ _ _
  | ok env =>
    unfold todo_parse_delete_todo_go at hgo
    cases client with
    | none =>
      rw [null_arg_spec _ _ hgo]
      exact statusPolicy_zero _ _ (by decide) (by decide) _ _ _
    | some c =>
      cases response with
      | none =>
        rw [null_arg_spec _ _ hgo]
        exact statusPolicy_zero _ _ (by decide) (by decide) _ _ _
      | some resp =>
        cases hcore : c.inner.parse_delete_todo (ffi_response_to_core resp) with
        | error e =>
          simp only [hcore] at hgo
          rw [from_error_spec e env hgo]
          refine statusPolicy_of_error _ resp rfl e ?_
          intro st2 b he
          have hshape :=
            parse_delete_error_shape c.inner (ffi_response_to_core resp) e hcore
          rw [he] at hshape
          rcases hshape with ⟨h1, _⟩ | h1
          · exact ApiError.noConfusion h1
          · exact (ApiError.HttpError.inj h1).1
        | ok u2 =>
          simp only [hcore] at hgo
          rw [← Unwind.ok.inj hgo]
          exact statusPolicy_zero _ _ (by decide) (by decide) _ _ _

/-- C10: the http_status field of every envelope produced by a parse FFI
operation is determined by the error kind: NotFound carries 404, Http
carries the literal response status, and every other envelope (Ok,
Deserialization, Serialization, NullArg, Panic) carries 0. -/
theorem http_status_field_policy (dl : String → Except String (List Todo))
    (dt : String → Except String Todo)
    (client : Option FfiTodoClient) (response : Option FfiHttpResponse) :
    StatusFieldPolicy response (todo_parse_list_todos dl client response) ∧
    StatusFieldPolicy response (todo_parse_get_todo dt client response) ∧
    StatusFieldPolicy response (todo_parse_create_todo dt client response) ∧
    StatusFieldPolicy response (todo_parse_update_todo dt client response) ∧
    StatusFieldPolicy response (todo_parse_delete_todo client response) :=
  ⟨statusPolicy_parse_list dl client response,
    statusPolicy_parse_get dt client response,
    statusPolicy_parse_create dt client response,
    statusPolicy_parse_update dt client response,
    statusPolicy_parse_delete client response⟩

/-- Specification predicate (from the claim text): the envelope reflects
the core parse result — success carries the Ok code, no message and the
payload tag (with a non-null payload unless the tag is None), an error
carries the mapped error code and message with no payload. -/
def ReflectsCoreResult {γ : Type} (res : Except ApiError γ)
    (tag : FfiDataTag) (env : FfiTodoResult) : Prop :=
  match res with
  | .ok _ =>
    env.error_code = .Ok ∧ env.error_message = none ∧ env.data_tag = tag ∧
      (tag = .None ∨ env.data ≠ none)
  | .error e =>
    env.error_code = e.ffiErrorCode ∧ env.error_message = some e.toMessage ∧
      env.data_tag = .None ∧ env.data = none

theorem reflects_parse_list_go (dl : String → Except String (List Todo))
    (c : FfiTodoClient) (resp : FfiHttpResponse) (env : FfiTodoResult)
    (h : todo_parse_list_todos_go dl (some c) (some resp) = .ok env) :
    ReflectsCoreResult (c.inner.parse_list_todos dl (ffi_response_to_core resp))
      .TodoList env := by
  unfold todo_parse_list_todos_go at h
  cases hcore : c.inner.parse_list_todos dl (ffi_response_to_core resp) with
  | error e =>
    simp only [hcore] at h
    rw [from_error_spec e env h]
    simp [ReflectsCoreResult]
  | ok todos =>
    simp only [hcore] at h
    obtain ⟨fts, henv⟩ := ok_todo_list_spec todos env h
    subst henv
    simp [ReflectsCoreResult]

theorem reflects_parse_get_go (dt : String → Except String Todo)
    (c : FfiTodoClient) (resp : FfiHttpResponse) (env : FfiTodoResult)
    (h : todo_parse_get_todo_go dt (some c) (some resp) = .ok env) :
    ReflectsCoreResult (c.inner.parse_get_todo dt (ffi_response_to_core resp))
      .Todo env := by
  unfold todo_parse_get_todo_go at h
  cases hcore : c.inner.parse_get_todo dt (ffi_response_to_core resp) with
  | error e =>
    simp only [hcore] at h
    rw [from_error_spec e env h]
    simp [ReflectsCoreResult]
  | ok todo =>
    simp only [hcore] at h
    rw [ok_todo_spec todo env h]
    simp [ReflectsCoreResult]

theorem reflects_parse_create_go (dt : String → Except String Todo)
    (c : FfiTodoClient) (resp : FfiHttpResponse) (env : FfiTodoResult)
    (h : todo_parse_create_todo_go dt (some c) (some resp) = .ok env) :
    ReflectsCoreResult (c.inner.parse_create_todo dt (ffi_response_to_core resp))
      .Todo env := by
  unfold todo_parse_create_todo_go at h
  cases hcore : c.inner.parse_create_todo dt (ffi_response_to_core resp) with
  | error e =>
    simp only [hcore] at h
    rw [from_error_spec e env h]
    simp [ReflectsCoreResult]
  | ok todo =>
    simp only [hcore] at h
    rw [ok_todo_spec todo env h]
    simp [ReflectsCoreResult]

theorem reflects_parse_update_go (dt : String → Except String Todo)
    (c : FfiTodoClient) (resp : FfiHttpResponse) (env : FfiTodoResult)
    (h : todo_parse_update_todo_go dt (some c) (some resp) = .ok env) :
    ReflectsCoreResult (c.inner.parse_update_todo dt (ffi_response_to_core resp))
      .Todo env := by
  unfold todo_parse_update_todo_go at h
  cases hcore : c.inner.parse_update_todo dt (ffi_response_to_core resp) with
  | error e =>
    simp only [hcore] at h
    rw [from_error_spec e env h]
    simp [ReflectsCoreResult]
  | ok todo =>
    simp only [hcore] at h
    rw [ok_todo_spec todo env h]
    simp [ReflectsCoreResult]

theorem reflects_parse_delete_go (c : FfiTodoClient) (resp : FfiHttpResponse)
    (env : FfiTodoResult)
    (h : todo_parse_delete_todo_go (some c) (some resp) = .ok env) :
    ReflectsCoreResult (c.inner.parse_delete_todo (ffi_response_to_core resp))
      .None env := by
  unfold todo_parse_delete_todo_go at h
  cases hcore : c.inner.parse_delete_todo (ffi_response_to_core resp) with
  | error e =>
    simp only [hcore] at h
    rw [from_error_spec e env h]
    simp [ReflectsCoreResult]
  | ok u2 =>
    simp only [hcore] at h
    rw [← Unwind.ok.inj h]
    simp [ReflectsCoreResult, FfiTodoResult.ok_empty]

/-- C2: every parse FFI operation returns a valid envelope for every
combination of client and response pointers: a null client or null
response yields the invalid-argument (NullArg) envelope, an intercepted
internal panic yields the fault (Panic) envelope, and otherwise the
returned envelope is the closure's result, which reflects the core parse
result (success payload or mapped error). -/
theorem parse_ffi_envelope_policy (dl : String → Except String (List Todo))
    (dt : String → Except String Todo) (c : FfiTodoClient)
    (resp : FfiHttpResponse) (client : Option FfiTodoClient)
    (response : Option FfiHttpResponse) :
    (todo_parse_list_todos dl none response =
      { error_code := .NullArg, error_message := some "null argument: client"
        http_status := 0, data_tag := .None, data := none }) ∧
    (todo_parse_list_todos dl (some c) none =
      { error_code := .NullArg, error_message := some "null argument: response"
        http_status := 0, data_tag := .None, data := none }) ∧
    (todo_parse_list_todos_go dl client response = .panicked →
      todo_parse_list_todos dl client response =
        FfiTodoResult.panic "panic in todo_parse_list_todos" ∧
      (todo_parse_list_todos dl client response).error_code = .Panic) ∧
    (∀ env, todo_parse_list_todos_go dl (some c) (some resp) = .ok env →
      todo_parse_list_todos dl (some c) (some resp) = env ∧
      ReflectsCoreResult
        (c.inner.parse_list_todos dl (ffi_response_to_core resp))
        .TodoList env) ∧
    (todo_parse_get_todo dt none response =
      { error_code := .NullArg, error_message := some "null argument: client"
        http_status := 0, data_tag := .None, data := none }) ∧
    (todo_parse_get_todo dt (some c) none =
      { error_code := .NullArg, error_message := some "null argument: response"
        http_status := 0, data_tag := .None, data := none }) ∧
    (todo_parse_get_todo_go dt client response = .panicked →
      todo_parse_get_todo dt client response =
        FfiTodoResult.panic "panic in todo_parse_get_todo" ∧
      (todo_parse_get_todo dt client response).error_code = .Panic) ∧
    (∀ env, todo_parse_get_todo_go dt (some c) (some resp) = .ok env →
      todo_parse_get_todo dt (some c) (some resp) = env ∧
      ReflectsCoreResult
        (c.inner.parse_get_todo dt (ffi_response_to_core resp)) .Todo env) ∧
    (todo_parse_create_todo dt none response =
      { error_code := .NullArg, error_message := some "null argument: client"
        http_status := 0, data_tag := .None, data := none }) ∧
    (todo_parse_create_todo dt (some c) none =
      { error_code := .NullArg, error_message := some "null argument: response"
        http_status := 0, data_tag := .None, data := none }) ∧
    (todo_parse_create_todo_go dt client response = .panicked →
      todo_parse_create_todo dt client response =
        FfiTodoResult.panic "panic in todo_parse_create_todo" ∧
      (todo_parse_create_todo dt client response).error_code = .Panic) ∧
    (∀ env, todo_parse_create_todo_go dt (some c) (some resp) = .ok env →
      todo_parse_create_todo dt (some c) (some resp) = env ∧
      ReflectsCoreResult
        (c.inner.parse_create_todo dt (ffi_response_to_core resp)) .Todo env) ∧
    (todo_parse_update_todo dt none response =
      { error_code := .NullArg, error_message := some "null argument: client"
        http_status := 0, data_tag := .None, data := none }) ∧
    (todo_parse_update_todo dt (some c) none =
      { error_code := .NullArg, error_message := some "null argument: response"
        http_status := 0, data_tag := .None, data := none }) ∧
    (todo_parse_update_todo_go dt client response = .panicked →
      todo_parse_update_todo dt client response =
        FfiTodoResult.panic "panic in todo_parse_update_todo" ∧
      (todo_parse_update_todo dt client response).error_code = .Panic) ∧
    (∀ env, todo_parse_update_todo_go dt (some c) (some resp) = .ok env →
      todo_parse_update_todo dt (some c) (some resp) = env ∧
      ReflectsCoreResult
        (c.inner.parse_update_todo dt (ffi_response_to_core resp)) .Todo env) ∧
    (todo_parse_delete_todo none response =
      { error_code := .NullArg, error_message := some "null argument: client"
        http_status := 0, data_tag := .None, data := none }) ∧
    (todo_parse_delete_todo (some c) none =
      { error_code := .NullArg, error_message := some "null argument: response"
        http_status := 0, data_tag := .None, data := none }) ∧
    (todo_parse_delete_todo_go client response = .panicked →
      todo_parse_delete_todo client response =
        FfiTodoResult.panic "panic in todo_parse_delete_todo" ∧
      (todo_parse_delete_todo client response).error_code = .Panic) ∧
    (∀ env, todo_parse_delete_todo_go (some c) (some resp) = .ok env →
      todo_parse_delete_todo (some c) (some resp) = env ∧
      ReflectsCoreResult
        (c.inner.parse_delete_todo (ffi_response_to_core resp)) .None env) := by
  refine ⟨rfl, rfl, ?_, ?_, rfl, rfl, ?_, ?_, rfl, rfl, ?_, ?_,
    rfl, rfl, ?_, ?_, rfl, rfl, ?_, ?_⟩
  · intro h
    unfold todo_parse_list_todos
    rw [h]
    exact ⟨rfl, rfl⟩
  · intro env h
    refine ⟨?_, reflects_parse_list_go dl c resp env h⟩
    unfold todo_parse_list_todos
    rw [h]
    rfl
  · intro h
    unfold todo_parse_get_todo
    rw [h]
    exact ⟨rfl, rfl⟩
  · intro env h
    refine ⟨?_, reflects_parse_get_go dt c resp env h⟩
    unfold todo_parse_get_todo
    rw [h]
    rfl
  · intro h
    unfold todo_parse_create_todo
    rw [h]
    exact ⟨rfl, rfl⟩
  · intro env h
    refine ⟨?_, reflects_parse_create_go dt c resp env h⟩
    unfold todo_parse_create_todo
    rw [h]
    rfl
  · intro h
    unfold todo_parse_update_todo
    rw [h]
    exact ⟨rfl, rfl⟩
  · intro env h
    refine ⟨?_, reflects_parse_update_go dt c resp env h⟩
    unfold todo_parse_update_todo
    rw [h]
    rfl
  · intro h
    unfold todo_parse_delete_todo
    rw [h]
    exact ⟨rfl, rfl⟩
  · intro env h
    refine ⟨?_, reflects_parse_delete_go c resp env h⟩
    unfold todo_parse_delete_todo
    rw [h]
    rfl

/-- C2 witness: the no-panic reflection clause discharged at a concrete
client, decoder and 500 response. -/
theorem parse_ffi_envelope_policy_witness :
    todo_parse_list_todos (fun _ => .error "bad")
        (some { inner := TodoClient.new "http://h" })
        (some { status := 500, body := some "oops" }) =
      { error_code := .Http, error_message := some "HTTP 500: oops"
        http_status := 500, data_tag := .None, data := none } ∧
    ReflectsCoreResult
      ((TodoClient.new "http://h").parse_list_todos (fun _ => .error "bad")
        (ffi_response_to_core { status := 500, body := some "oops" }))
      .TodoList
      { error_code := .Http, error_message := some "HTTP 500: oops"
        http_status := 500, data_tag := .None, data := none } :=
  (parse_ffi_envelope_policy (fun _ => .error "bad") (fun _ => .error "bad")
      { inner := TodoClient.new "http://h" }
      { status := 500, body := some "oops" } none none).2.2.2.1
    { error_code := .Http, error_message := some "HTTP 500: oops"
      http_status := 500, data_tag := .None, data := none }
    (by decide)
